import Mathlib

/-!
Shallow embedding of the seat-state reconciliation and change-log engine of
the librarySeatDetect repository (src/Web/js/main.js and
src/Web/frontend/js/main.js): snapshot normalization, transition detection,
the bounded per-seat log store, aggregate counts, and the two drivers
(push-driven ticks and the timed replay loop).
-/

namespace SeatDetect

/-- Semantic seat status, the values of the JS `STATUS_MAP`
(`1 → "Occupied"`, `2 → "On-Hold"`, `3 → "Empty"`). -/
inductive Status where
  | Occupied
  | OnHold
  | Empty
deriving DecidableEq, Repr

/-- The display string of a status, as the JS string values render. -/
def statusString : Status → String
  | .Occupied => "Occupied"
  | .OnHold => "On-Hold"
  | .Empty => "Empty"

/-- The JS `STATUS_MAP` lookup: a status code maps to a status string, and
codes outside the map yield `undefined` (here `none`). -/
def STATUS_MAP : Nat → Option Status
  | 1 => some .Occupied
  | 2 => some .OnHold
  | 3 => some .Empty
  | _ => none

/-- One entry of the normalized seat array: `{ id, status }`. -/
structure Seat where
  id : String
  status : Status
deriving DecidableEq, Repr

/-- A raw backend snapshot `{ timestamp, status_codes }`; `status_codes` is
the JS object's key/value pairs in iteration order. -/
structure RawSnapshot where
  timestamp : String
  status_codes : List (String × Nat)
deriving DecidableEq, Repr

/-- The JS `seatId.toUpperCase()`: uppercase every character. -/
def toUpperCase (s : String) : String := String.mk (s.data.map Char.toUpper)

/-- `processBackendData`: for each raw key, look the code up in
`STATUS_MAP`; when the lookup yields a status string, push
`{ id: seatId.toUpperCase(), status }`; otherwise skip the entry.
Returns the seat array together with the snapshot's timestamp. -/
def processBackendData (jsonObject : RawSnapshot) : List Seat × String :=
  (jsonObject.status_codes.filterMap (fun p =>
      (STATUS_MAP p.2).map (fun st => Seat.mk (toUpperCase p.1) st)),
   jsonObject.timestamp)

/-- One log entry `{ t, msg }` of a seat's history. -/
structure LogEntry where
  t : String
  msg : String
deriving DecidableEq, Repr

/-- The `currentSeatLogs` JS object: a seat id is either absent (`none`,
JS `undefined`) or holds its list of entries, newest first. -/
def SeatLogs : Type := String → Option (List LogEntry)

/-- The empty `currentSeatLogs = {}` store. -/
def initLogs : SeatLogs := fun _ => none

/-- `renderLogList`'s read of the store: `currentSeatLogs[seatId] || []`. -/
def renderLogList (logs : SeatLogs) (seatId : String) : List LogEntry :=
  (logs seatId).getD []

/-- The unshift-then-truncate step of `addLogEntry`: put the entry at the
head, then `slice(0, 5)` when the length exceeds 5. -/
def pushCapped (entry : LogEntry) (cur : List LogEntry) : List LogEntry :=
  let l := entry :: cur
  if l.length > 5 then l.take 5 else l

/-- `addLogEntry(seatId, timestamp, oldStatus, newStatus)`: builds the
message `oldStatus ➝ newStatus`, lazily creates the seat's list, unshifts
the new entry, and truncates with `slice(0, 5)` when the length exceeds 5.
Only the `seatId` key of the store is written. -/
def addLogEntry (logs : SeatLogs) (seatId timestamp : String)
    (oldStatus newStatus : Status) : SeatLogs :=
  fun k =>
    if k = seatId then
      let message := statusString oldStatus ++ " ➝ " ++ statusString newStatus
      some (pushCapped (LogEntry.mk timestamp message) ((logs seatId).getD []))
    else logs k

/-- The global mutable state the reconciliation code touches:
`currentSeats`, `lastTimestamp` and `currentSeatLogs`. -/
structure AppState where
  currentSeats : List Seat
  lastTimestamp : String
  currentSeatLogs : SeatLogs

/-- The initial globals: `currentSeats = []`, `lastTimestamp = "---"`,
`currentSeatLogs = {}`. -/
def initState : AppState :=
  { currentSeats := [], lastTimestamp := "---", currentSeatLogs := initLogs }

/-- The JS `addLogEntry` as an action on the whole global state: it writes
only `currentSeatLogs`, leaving `currentSeats` and `lastTimestamp` alone. -/
def addLogEntryState (st : AppState) (seatId timestamp : String)
    (oldStatus newStatus : Status) : AppState :=
  { st with currentSeatLogs :=
      addLogEntry st.currentSeatLogs seatId timestamp oldStatus newStatus }

/-- The per-tick log update: `newSeatArray.forEach(newSeat => ...)` looks
each new seat up in the old `currentSeats` by id; when found with a
different status AND the new status is `Occupied`, it calls `addLogEntry`. -/
def tickLogs (oldSeats : List Seat) (timestamp : String) :
    List Seat → SeatLogs → SeatLogs
  | [], logs => logs
  | newSeat :: rest, logs =>
    tickLogs oldSeats timestamp rest
      (match oldSeats.find? (fun s => s.id == newSeat.id) with
       | some oldSeat =>
         if oldSeat.status ≠ newSeat.status then
           if newSeat.status = Status.Occupied then
             addLogEntry logs newSeat.id timestamp oldSeat.status newSeat.status
           else logs
         else logs
       | none => logs)

/-- The transitions the tick's `forEach` detects: one `(id, from, to)` per
new seat found in the old seats with a different status (the condition
`if (oldSeat && oldSeat.status !== newSeat.status)`). -/
def detectTransitions (oldSeats newSeats : List Seat) :
    List (String × Status × Status) :=
  newSeats.filterMap (fun newSeat =>
    match oldSeats.find? (fun s => s.id == newSeat.id) with
    | some oldSeat =>
      if oldSeat.status ≠ newSeat.status then
        some (newSeat.id, oldSeat.status, newSeat.status)
      else none
    | none => none)

/-- One reconciliation tick, the body shared by the
`socket.on("status_update")` handler and steps 2-5 of `runUpdateStep`:
process the snapshot, update logs from detected transitions (Occupied
filter applied), then replace `currentSeats` and `lastTimestamp`. -/
def statusUpdate (st : AppState) (data : RawSnapshot) : AppState :=
  let processed := processBackendData data
  { currentSeats := processed.1,
    lastTimestamp := processed.2,
    currentSeatLogs := tickLogs st.currentSeats processed.2 processed.1 st.currentSeatLogs }

/-- Replay-mode state: the globals plus the frame cursor `currentIndex`. -/
structure ReplayState where
  app : AppState
  currentIndex : Nat

/-- `runUpdateStep`: read `simulationData[currentIndex]` (out-of-bounds is
a JS crash, modelled as `none`), run one tick on it, advance the cursor,
and wrap to 0 once it reaches the end of the list. -/
def runUpdateStep (simulationData : List RawSnapshot) (st : ReplayState) :
    Option ReplayState :=
  (simulationData.get? st.currentIndex).map (fun currentFrame =>
    let app := statusUpdate st.app currentFrame
    let nextIndex := st.currentIndex + 1
    { app := app,
      currentIndex := if nextIndex ≥ simulationData.length then 0 else nextIndex })

/-- `startSimulationLoop`: returns without starting (`none`) on an empty
list; otherwise applies the first frame directly (no transition detection,
logs untouched) and sets the cursor to 1. -/
def startSimulationLoop (simulationData : List RawSnapshot) (st : AppState) :
    Option ReplayState :=
  match simulationData with
  | [] => none
  | firstFrame :: _ =>
    let p := processBackendData firstFrame
    some { app := { currentSeats := p.1, lastTimestamp := p.2,
                    currentSeatLogs := st.currentSeatLogs },
           currentIndex := 1 }

/-- Iterating the replay timer: `n` firings of the interval callback. -/
def replayTicks (simulationData : List RawSnapshot) :
    Nat → ReplayState → Option ReplayState
  | 0, st => some st
  | n + 1, st => (runUpdateStep simulationData st).bind (replayTicks simulationData n)

/-- The aggregate counts `{ Occupied, "On-Hold", Empty, Total }`. -/
structure Counts where
  Occupied : Nat
  OnHold : Nat
  Empty : Nat
  Total : Nat
deriving DecidableEq, Repr

/-- The `forEach` body of `updateSummaryCards`: increment the counter
named by the seat's status (every status string is a key of `counts`). -/
def countStep (counts : Counts) (seat : Seat) : Counts :=
  match seat.status with
  | .Occupied => { counts with Occupied := counts.Occupied + 1 }
  | .OnHold => { counts with OnHold := counts.OnHold + 1 }
  | .Empty => { counts with Empty := counts.Empty + 1 }

/-- `updateSummaryCards`' counting: start from all-zero counters with
`Total = data.length`, then increment the matching status counter per
seat. -/
def updateSummaryCards (data : List Seat) : Counts :=
  data.foldl countStep { Occupied := 0, OnHold := 0, Empty := 0, Total := data.length }

/-- The arguments of one `addLogEntry` call, for quantifying over
sequences of record operations on the log store. -/
structure RecordOp where
  seatId : String
  timestamp : String
  oldStatus : Status
  newStatus : Status

/-- Apply a sequence of `addLogEntry` calls in order. -/
def applyRecords : List RecordOp → SeatLogs → SeatLogs
  | [], logs => logs
  | op :: rest, logs =>
    applyRecords rest (addLogEntry logs op.seatId op.timestamp op.oldStatus op.newStatus)

/-- The normalizer as the spec words it (§4.1): canonicalize each raw key
to uppercase, map code 1 to Occupied, 2 to On-Hold, 3 to Empty, and
silently exclude entries with any other code. Stated separately from
`processBackendData` so the refinement can be proved. -/
def normalizeSeats_spec (jsonObject : RawSnapshot) : List Seat :=
  jsonObject.status_codes.filterMap (fun p =>
    if p.2 = 1 then some (Seat.mk (toUpperCase p.1) Status.Occupied)
    else if p.2 = 2 then some (Seat.mk (toUpperCase p.1) Status.OnHold)
    else if p.2 = 3 then some (Seat.mk (toUpperCase p.1) Status.Empty)
    else none)

/-! ### Concrete example inputs -/

/-- A two-frame replay list: seat T1 is Occupied in frame 0 and Empty in
frame 1, so each wrap-around tick re-applies frame 0 as an
Empty-to-Occupied transition. -/
def demoFrames : List RawSnapshot :=
  [⟨"t0", [("T1", 1)]⟩, ⟨"t1", [("T1", 3)]⟩]

/-- A snapshot whose keys `t1` and `T1` collide after uppercasing, with
different status codes (3 then 1 in iteration order). -/
def dupSnapshot : RawSnapshot := ⟨"ts", [("t1", 3), ("T1", 1)]⟩

/-- A log list already at the 5-entry capacity. -/
def fullLog : List LogEntry :=
  [⟨"t5", "m5"⟩, ⟨"t4", "m4"⟩, ⟨"t3", "m3"⟩, ⟨"t2", "m2"⟩, ⟨"t1", "m1"⟩]

/-- A store whose only seat, T1, has a full log. -/
def fullLogs : SeatLogs := fun k => if k = "T1" then some fullLog else none

/-! ## Helper lemmas -/

lemma countStep_total (counts : Counts) (seat : Seat) :
    (countStep counts seat).Total = counts.Total := by
  cases seat with
  | mk id status => cases status <;> rfl

lemma foldl_countStep_total (l : List Seat) (counts : Counts) :
    (l.foldl countStep counts).Total = counts.Total := by
  induction l generalizing counts with
  | nil => rfl
  | cons seat rest ih =>
    rw [List.foldl_cons, ih, countStep_total]

lemma countStep_sum (counts : Counts) (seat : Seat) :
    (countStep counts seat).Occupied + (countStep counts seat).OnHold
      + (countStep counts seat).Empty
      = counts.Occupied + counts.OnHold + counts.Empty + 1 := by
  cases seat with
  | mk id status => cases status <;> simp [countStep] <;> omega

lemma foldl_countStep_sum (l : List Seat) (counts : Counts) :
    (l.foldl countStep counts).Occupied + (l.foldl countStep counts).OnHold
      + (l.foldl countStep counts).Empty
      = counts.Occupied + counts.OnHold + counts.Empty + l.length := by
  induction l generalizing counts with
  | nil => simp
  | cons seat rest ih =>
    rw [List.foldl_cons, ih, countStep_sum]
    simp [List.length_cons]
    omega

lemma STATUS_MAP_eq_cases (c : Nat) :
    STATUS_MAP c = (if c = 1 then some Status.Occupied
      else if c = 2 then some Status.OnHold
      else if c = 3 then some Status.Empty
      else none) := by
  match c with
  | 0 => rfl
  | 1 => rfl
  | 2 => rfl
  | 3 => rfl
  | n + 4 => rfl

lemma addLogEntry_apply_ne (logs : SeatLogs) (seatId timestamp : String)
    (oldStatus newStatus : Status) (k : String) (h : k ≠ seatId) :
    addLogEntry logs seatId timestamp oldStatus newStatus k = logs k := by
  simp [addLogEntry, h]

lemma pushCapped_length_le (entry : LogEntry) (cur : List LogEntry) :
    (pushCapped entry cur).length ≤ 5 := by
  simp only [pushCapped]
  split_ifs with hlen
  · simp [List.length_take]
  · omega

lemma pushCapped_of_full (entry : LogEntry) (cur : List LogEntry)
    (h : cur.length = 5) : pushCapped entry cur = entry :: cur.take 4 := by
  simp only [pushCapped]
  rw [if_pos (by simp [h]), List.take_succ_cons]

lemma renderLogList_addLogEntry_self (logs : SeatLogs) (seatId timestamp : String)
    (oldStatus newStatus : Status) :
    renderLogList (addLogEntry logs seatId timestamp oldStatus newStatus) seatId
      = pushCapped
          (LogEntry.mk timestamp
            (statusString oldStatus ++ " ➝ " ++ statusString newStatus))
          (renderLogList logs seatId) := by
  simp [renderLogList, addLogEntry]

lemma renderLogList_addLogEntry_le (logs : SeatLogs) (seatId timestamp : String)
    (oldStatus newStatus : Status) (k : String)
    (h : (renderLogList logs k).length ≤ 5) :
    (renderLogList (addLogEntry logs seatId timestamp oldStatus newStatus) k).length ≤ 5 := by
  by_cases hk : k = seatId
  · subst hk
    rw [renderLogList_addLogEntry_self]
    exact pushCapped_length_le _ _
  · rw [renderLogList, addLogEntry_apply_ne _ _ _ _ _ _ hk]
    exact h

lemma applyRecords_length_le (ops : List RecordOp) (logs : SeatLogs)
    (h : ∀ k, (renderLogList logs k).length ≤ 5) :
    ∀ k, (renderLogList (applyRecords ops logs) k).length ≤ 5 := by
  induction ops generalizing logs with
  | nil => exact h
  | cons op rest ih =>
    exact ih _ (fun k => renderLogList_addLogEntry_le _ _ _ _ _ _ (h k))

lemma applyRecords_apply_ne (ops : List RecordOp) (logs : SeatLogs) (seatId : String)
    (h : ∀ op ∈ ops, op.seatId ≠ seatId) :
    applyRecords ops logs seatId = logs seatId := by
  induction ops generalizing logs with
  | nil => rfl
  | cons op rest ih =>
    rw [applyRecords, ih _ (fun o ho => h o (List.mem_cons_of_mem _ ho)),
      addLogEntry_apply_ne _ _ _ _ _ _ (fun e => h op (List.mem_cons_self _ _) e.symm)]

lemma tickLogs_apply_not_occupied (newSeats oldSeats : List Seat) (timestamp : String)
    (logs : SeatLogs) (seatId : String)
    (h : ∀ seat ∈ newSeats, seat.id = seatId → seat.status ≠ Status.Occupied) :
    tickLogs oldSeats timestamp newSeats logs seatId = logs seatId := by
  induction newSeats generalizing logs with
  | nil => rfl
  | cons newSeat rest ih =>
    rw [tickLogs, ih _ (fun s hs => h s (List.mem_cons_of_mem _ hs))]
    cases hfind : oldSeats.find? (fun s => s.id == newSeat.id) with
    | none => rfl
    | some oldSeat =>
      dsimp only
      by_cases hst : oldSeat.status ≠ newSeat.status
      · rw [if_pos hst]
        by_cases hocc : newSeat.status = Status.Occupied
        · rw [if_pos hocc]
          have hid : newSeat.id ≠ seatId := by
            intro he
            exact h newSeat (List.mem_cons_self _ _) he hocc
          exact addLogEntry_apply_ne _ _ _ _ _ _ (fun e => hid e.symm)
        · rw [if_neg hocc]
      · rw [if_neg hst]

lemma tickLogs_apply_absent (newSeats oldSeats : List Seat) (timestamp : String)
    (logs : SeatLogs) (seatId : String)
    (h : ∀ s ∈ oldSeats, s.id ≠ seatId) :
    tickLogs oldSeats timestamp newSeats logs seatId = logs seatId := by
  induction newSeats generalizing logs with
  | nil => rfl
  | cons newSeat rest ih =>
    rw [tickLogs, ih]
    by_cases hid : newSeat.id = seatId
    · have hfind : oldSeats.find? (fun s => s.id == newSeat.id) = none := by
        rw [List.find?_eq_none]
        intro s hs
        simp only [beq_iff_eq]
        rw [hid]
        exact h s hs
      simp [hfind]
    · cases hfind : oldSeats.find? (fun s => s.id == newSeat.id) with
      | none => rfl
      | some oldSeat =>
        dsimp only
        by_cases hst : oldSeat.status ≠ newSeat.status
        · rw [if_pos hst]
          by_cases hocc : newSeat.status = Status.Occupied
          · rw [if_pos hocc]
            exact addLogEntry_apply_ne _ _ _ _ _ _ (fun e => hid e.symm)
          · rw [if_neg hocc]
        · rw [if_neg hst]

lemma detectTransitions_fst_ne (oldSeats newSeats : List Seat) (seatId : String)
    (h : ∀ s ∈ oldSeats, s.id ≠ seatId) :
    ∀ tr ∈ detectTransitions oldSeats newSeats, tr.1 ≠ seatId := by
  intro tr htr
  rw [detectTransitions, List.mem_filterMap] at htr
  obtain ⟨newSeat, _, heq⟩ := htr
  cases hfind : oldSeats.find? (fun s => s.id == newSeat.id) with
  | none => rw [hfind] at heq; exact absurd heq (by simp)
  | some oldSeat =>
    rw [hfind] at heq
    dsimp only at heq
    have hmem := List.mem_of_find?_eq_some hfind
    have hids : oldSeat.id = newSeat.id := by
      have hb := List.find?_some hfind
      simpa using hb
    by_cases hst : oldSeat.status ≠ newSeat.status
    · rw [if_pos hst] at heq
      obtain rfl : (newSeat.id, oldSeat.status, newSeat.status) = tr := Option.some.inj heq
      show newSeat.id ≠ seatId
      rw [← hids]
      exact h oldSeat hmem
    · rw [if_neg hst] at heq
      exact absurd heq (by simp)

lemma find?_id_self_of_nodup (l : List Seat) (hnd : (l.map Seat.id).Nodup) :
    ∀ seat ∈ l, l.find? (fun s => s.id == seat.id) = some seat := by
  induction l with
  | nil => intro seat hs; cases hs
  | cons a rest ih =>
    intro seat hs
    rw [List.map_cons, List.nodup_cons] at hnd
    rcases List.mem_cons.mp hs with rfl | hmem
    · exact List.find?_cons_of_pos _ (by simp)
    · have hne : a.id ≠ seat.id := by
        intro he
        have hm : seat.id ∈ rest.map Seat.id := List.mem_map_of_mem _ hmem
        rw [← he] at hm
        exact hnd.1 hm
      rw [List.find?_cons_of_neg _ (by simp [hne])]
      exact ih hnd.2 seat hmem

lemma tickLogs_no_change (oldSeats : List Seat) (timestamp : String) :
    ∀ (newSeats : List Seat) (logs : SeatLogs),
    (∀ seat ∈ newSeats, oldSeats.find? (fun s => s.id == seat.id) = some seat) →
    tickLogs oldSeats timestamp newSeats logs = logs := by
  intro newSeats
  induction newSeats with
  | nil => intro logs _; rfl
  | cons a rest ih =>
    intro logs h
    rw [tickLogs, h a (List.mem_cons_self _ _)]
    dsimp only
    rw [if_neg (by simp)]
    exact ih logs (fun s hs => h s (List.mem_cons_of_mem _ hs))

lemma detectTransitions_self (oldSeats newSeats : List Seat)
    (h : ∀ seat ∈ newSeats, oldSeats.find? (fun s => s.id == seat.id) = some seat) :
    detectTransitions oldSeats newSeats = [] := by
  rw [detectTransitions, List.filterMap_eq_nil_iff]
  intro seat hs
  rw [h seat hs]
  dsimp only
  rw [if_neg (by simp)]

/-! ## Claim theorems -/

/-- C1 counterexample: in the replay loop over `demoFrames`, after the
seed and one timer tick the log is empty and the cursor has wrapped to 0;
the next tick applies frame index 0 and DOES produce a log entry (stamped
with frame 0's timestamp), so the first frame's application is not
log-free over the whole loop. -/
theorem replay_first_frame_logs_counterexample :
    ((startSimulationLoop demoFrames initState).bind (replayTicks demoFrames 1)).map
        (fun r => (renderLogList r.app.currentSeatLogs "T1", r.currentIndex))
      = some ([], 0)
    ∧ ((startSimulationLoop demoFrames initState).bind (replayTicks demoFrames 2)).map
        (fun r => renderLogList r.app.currentSeatLogs "T1")
      = some [⟨"t0", "Empty ➝ Occupied"⟩] :=
  ⟨by decide, by decide⟩

/-- C1 (amended): starting the replay loop on a nonempty list applies the
first snapshot once, immediately and without transition detection (the
log store is untouched and the cursor starts at 1), and the tick that
consumes the last frame wraps the cursor back to 0; wrap-around
applications of frame 0 run ordinary transition detection and may log. -/
theorem replay_seed_and_wraparound (simulationData : List RawSnapshot) (st : AppState)
    (r : ReplayState) (hne : simulationData ≠ [])
    (hlast : r.currentIndex + 1 = simulationData.length) :
    startSimulationLoop simulationData st
      = some ⟨⟨(processBackendData (simulationData.headD ⟨"", []⟩)).1,
               (processBackendData (simulationData.headD ⟨"", []⟩)).2,
               st.currentSeatLogs⟩, 1⟩
    ∧ ∃ r2, runUpdateStep simulationData r = some r2 ∧ r2.currentIndex = 0 := by
  constructor
  · cases simulationData with
    | nil => exact absurd rfl hne
    | cons firstFrame rest => rfl
  · have hlt : r.currentIndex < simulationData.length := by omega
    have hget : simulationData.get? r.currentIndex
        = some (simulationData.get ⟨r.currentIndex, hlt⟩) := List.get?_eq_get hlt
    refine ⟨⟨statusUpdate r.app (simulationData.get ⟨r.currentIndex, hlt⟩),
      if r.currentIndex + 1 ≥ simulationData.length then 0 else r.currentIndex + 1⟩, ?_, ?_⟩
    · rw [runUpdateStep, hget]
      rfl
    · simp only
      rw [if_pos (by omega)]

/-- C1 witness: the seed/wrap theorem instantiated on the two-frame demo
list, with the cursor one tick before the end. -/
theorem replay_seed_and_wraparound_witness :
    startSimulationLoop demoFrames initState
      = some ⟨⟨(processBackendData (demoFrames.headD ⟨"", []⟩)).1,
               (processBackendData (demoFrames.headD ⟨"", []⟩)).2,
               initState.currentSeatLogs⟩, 1⟩
    ∧ ∃ r2, runUpdateStep demoFrames ⟨initState, 1⟩ = some r2 ∧ r2.currentIndex = 0 :=
  replay_seed_and_wraparound demoFrames initState ⟨initState, 1⟩ (by decide) (by decide)

/-- C7 counterexample: the snapshot with raw keys t1 and T1 (colliding
after uppercasing, with different codes) logs nothing on its first tick
but adds an entry on the identical second tick, so processing the same
snapshot twice is not idempotent. -/
theorem replay_idempotence_counterexample :
    renderLogList (statusUpdate (statusUpdate initState dupSnapshot) dupSnapshot).currentSeatLogs "T1"
      = [⟨"ts", "Empty ➝ Occupied"⟩]
    ∧ renderLogList (statusUpdate initState dupSnapshot).currentSeatLogs "T1" = [] :=
  ⟨by decide, by decide⟩

/-- C7 (amended): when the normalized seat list has no duplicate canonical
ids, processing the same snapshot twice produces zero transitions on the
second tick and leaves the whole log store unchanged. -/
theorem replay_same_snapshot_idempotent (st : AppState) (data : RawSnapshot)
    (hnd : ((processBackendData data).1.map Seat.id).Nodup) :
    detectTransitions (statusUpdate st data).currentSeats (processBackendData data).1 = []
    ∧ (statusUpdate (statusUpdate st data) data).currentSeatLogs
      = (statusUpdate st data).currentSeatLogs := by
  have hfind := find?_id_self_of_nodup (processBackendData data).1 hnd
  exact ⟨detectTransitions_self _ _ hfind,
    tickLogs_no_change _ _ _ _ hfind⟩

/-- C7 witness: a duplicate-free snapshot replayed twice: no transitions
and an unchanged store on the second tick. -/
theorem replay_same_snapshot_idempotent_witness :
    detectTransitions (statusUpdate initState ⟨"ts", [("T1", 1)]⟩).currentSeats
        (processBackendData ⟨"ts", [("T1", 1)]⟩).1 = []
    ∧ (statusUpdate (statusUpdate initState ⟨"ts", [("T1", 1)]⟩) ⟨"ts", [("T1", 1)]⟩).currentSeatLogs
      = (statusUpdate initState ⟨"ts", [("T1", 1)]⟩).currentSeatLogs :=
  replay_same_snapshot_idempotent initState ⟨"ts", [("T1", 1)]⟩ (by decide)

/-- C5: for every raw snapshot, the aggregate counts of its normalized
seat list satisfy Occupied + OnHold + Empty = Total, and Total is the
length of the normalized list (excluded codes count nowhere). -/
theorem counts_sum_eq_total (data : RawSnapshot) :
    (updateSummaryCards (processBackendData data).1).Occupied
      + (updateSummaryCards (processBackendData data).1).OnHold
      + (updateSummaryCards (processBackendData data).1).Empty
      = (updateSummaryCards (processBackendData data).1).Total
    ∧ (updateSummaryCards (processBackendData data).1).Total
      = (processBackendData data).1.length := by
  have hs := foldl_countStep_sum (processBackendData data).1
    ⟨0, 0, 0, (processBackendData data).1.length⟩
  have ht := foldl_countStep_total (processBackendData data).1
    ⟨0, 0, 0, (processBackendData data).1.length⟩
  constructor
  · rw [updateSummaryCards, hs, ht]
    simp
  · rw [updateSummaryCards, ht]

/-- C6: the normalizer produces exactly the entries whose code lies in
{1,2,3}, mapped 1→Occupied, 2→On-Hold, 3→Empty, with ids uppercased and
other codes silently excluded; on the snapshot {T1: 9, T2: 3} it yields
the single entry T2→Empty with Total = 1. -/
theorem normalizer_matches_spec :
    (∀ jsonObject : RawSnapshot,
        processBackendData jsonObject = (normalizeSeats_spec jsonObject, jsonObject.timestamp))
    ∧ processBackendData ⟨"ts", [("T1", 9), ("T2", 3)]⟩ = ([Seat.mk "T2" Status.Empty], "ts")
    ∧ (updateSummaryCards (processBackendData ⟨"ts", [("T1", 9), ("T2", 3)]⟩).1).Total = 1 := by
  refine ⟨fun jsonObject => ?_, by decide, by decide⟩
  unfold processBackendData normalizeSeats_spec
  have h : (fun p : String × Nat =>
      (STATUS_MAP p.2).map (fun st => Seat.mk (toUpperCase p.1) st))
      = (fun p : String × Nat =>
        if p.2 = 1 then some (Seat.mk (toUpperCase p.1) Status.Occupied)
        else if p.2 = 2 then some (Seat.mk (toUpperCase p.1) Status.OnHold)
        else if p.2 = 3 then some (Seat.mk (toUpperCase p.1) Status.Empty)
        else none) := by
    funext p
    rw [STATUS_MAP_eq_cases]
    split_ifs <;> rfl
  rw [h]

/-- C2: a transition is logged only when its ToStatus is Occupied: if
every normalized entry of a seat on a tick has a non-Occupied status, the
tick leaves that seat's log untouched while still replacing the held
seat-state table with the new snapshot. -/
theorem log_only_when_occupied (st : AppState) (data : RawSnapshot) (seatId : String)
    (h : ∀ seat ∈ (processBackendData data).1,
      seat.id = seatId → seat.status ≠ Status.Occupied) :
    (statusUpdate st data).currentSeatLogs seatId = st.currentSeatLogs seatId
    ∧ (statusUpdate st data).currentSeats = (processBackendData data).1 :=
  ⟨tickLogs_apply_not_occupied _ _ _ _ _ h, rfl⟩

/-- C2 witness: a seat going Empty → On-Hold updates the table but leaves
its log empty. -/
theorem log_only_when_occupied_witness :
    (statusUpdate ⟨[⟨"T1", Status.Empty⟩], "t0", initLogs⟩ ⟨"t1", [("T1", 2)]⟩).currentSeatLogs "T1"
      = initLogs "T1"
    ∧ (statusUpdate ⟨[⟨"T1", Status.Empty⟩], "t0", initLogs⟩ ⟨"t1", [("T1", 2)]⟩).currentSeats
      = (processBackendData ⟨"t1", [("T1", 2)]⟩).1 :=
  log_only_when_occupied ⟨[⟨"T1", Status.Empty⟩], "t0", initLogs⟩ ⟨"t1", [("T1", 2)]⟩ "T1"
    (by decide)

/-- C3: every seat's log stays at 5 entries or fewer under any sequence of
record operations on the store, and recording into a full log keeps the 5
newest entries by evicting the oldest. -/
theorem seat_log_bounded :
    (∀ (ops : List RecordOp) (seatId : String),
      (renderLogList (applyRecords ops initLogs) seatId).length ≤ 5)
    ∧ (∀ (logs : SeatLogs) (seatId timestamp : String) (oldStatus newStatus : Status),
      (renderLogList logs seatId).length = 5 →
      renderLogList (addLogEntry logs seatId timestamp oldStatus newStatus) seatId
        = LogEntry.mk timestamp (statusString oldStatus ++ " ➝ " ++ statusString newStatus)
          :: (renderLogList logs seatId).take 4) := by
  constructor
  · intro ops seatId
    exact applyRecords_length_le ops initLogs (fun k => by simp [renderLogList, initLogs]) seatId
  · intro logs seatId timestamp oldStatus newStatus h
    rw [renderLogList_addLogEntry_self, pushCapped_of_full _ _ h]

/-- C3 witness: a sample record sequence stays within the bound, and a
push into the full store keeps the newest 5. -/
theorem seat_log_bounded_witness :
    (renderLogList (applyRecords [⟨"T1", "t", Status.Empty, Status.Occupied⟩] initLogs) "T1").length ≤ 5
    ∧ renderLogList (addLogEntry fullLogs "T1" "t6" Status.Empty Status.Occupied) "T1"
      = LogEntry.mk "t6" (statusString Status.Empty ++ " ➝ " ++ statusString Status.Occupied)
        :: (renderLogList fullLogs "T1").take 4 :=
  ⟨seat_log_bounded.1 [⟨"T1", "t", Status.Empty, Status.Occupied⟩] "T1",
   seat_log_bounded.2 fullLogs "T1" "t6" Status.Empty Status.Occupied (by decide)⟩

/-- C4: a seat absent from the previously held table produces no
transition and no log entry on its first appearance. -/
theorem first_appearance_silent (st : AppState) (data : RawSnapshot) (seatId : String)
    (h : ∀ s ∈ st.currentSeats, s.id ≠ seatId) :
    (∀ tr ∈ detectTransitions st.currentSeats (processBackendData data).1, tr.1 ≠ seatId)
    ∧ (statusUpdate st data).currentSeatLogs seatId = st.currentSeatLogs seatId :=
  ⟨detectTransitions_fst_ne _ _ _ h, tickLogs_apply_absent _ _ _ _ _ h⟩

/-- C4 witness: against the empty initial table, T1's first appearance
emits nothing and logs nothing. -/
theorem first_appearance_silent_witness :
    (∀ tr ∈ detectTransitions initState.currentSeats
        (processBackendData ⟨"t0", [("T1", 1)]⟩).1, tr.1 ≠ "T1")
    ∧ (statusUpdate initState ⟨"t0", [("T1", 1)]⟩).currentSeatLogs "T1"
      = initState.currentSeatLogs "T1" :=
  first_appearance_silent initState ⟨"t0", [("T1", 1)]⟩ "T1" (by decide)

/-- C8: a seat id never targeted by any record operation has no stored
log, and querying it yields the empty list, never an error. -/
theorem query_unrecorded_empty (ops : List RecordOp) (seatId : String)
    (h : ∀ op ∈ ops, op.seatId ≠ seatId) :
    applyRecords ops initLogs seatId = none
    ∧ renderLogList (applyRecords ops initLogs) seatId = [] := by
  have he : applyRecords ops initLogs seatId = initLogs seatId :=
    applyRecords_apply_ne ops initLogs seatId h
  exact ⟨he, by rw [renderLogList, he]; rfl⟩

/-- C8 witness: after recording only T2, querying T1 yields []. -/
theorem query_unrecorded_empty_witness :
    applyRecords [⟨"T2", "t", Status.Empty, Status.Occupied⟩] initLogs "T1" = none
    ∧ renderLogList (applyRecords [⟨"T2", "t", Status.Empty, Status.Occupied⟩] initLogs) "T1" = [] :=
  query_unrecorded_empty [⟨"T2", "t", Status.Empty, Status.Occupied⟩] "T1" (by decide)

/-- C10: recording for one seat changes no other seat's log and leaves the
held seat list and last timestamp untouched. -/
theorem record_frame (st : AppState) (seatId timestamp : String)
    (oldStatus newStatus : Status) (k : String) (h : k ≠ seatId) :
    (addLogEntryState st seatId timestamp oldStatus newStatus).currentSeatLogs k
      = st.currentSeatLogs k
    ∧ (addLogEntryState st seatId timestamp oldStatus newStatus).currentSeats
      = st.currentSeats
    ∧ (addLogEntryState st seatId timestamp oldStatus newStatus).lastTimestamp
      = st.lastTimestamp :=
  ⟨addLogEntry_apply_ne _ _ _ _ _ _ h, rfl, rfl⟩

/-- C10 witness: recording for T1 leaves T2's log and the other globals
alone. -/
theorem record_frame_witness :
    (addLogEntryState initState "T1" "t" Status.Empty Status.Occupied).currentSeatLogs "T2"
      = initState.currentSeatLogs "T2"
    ∧ (addLogEntryState initState "T1" "t" Status.Empty Status.Occupied).currentSeats
      = initState.currentSeats
    ∧ (addLogEntryState initState "T1" "t" Status.Empty Status.Occupied).lastTimestamp
      = initState.lastTimestamp :=
  record_frame initState "T1" "t" Status.Empty Status.Occupied "T2" (by decide)

/-- C9: the normalizer deduplicates nothing: the snapshot with raw keys
t1 and T1 (both code 1) normalizes to two entries with the same canonical
id T1, and both count toward Occupied and Total. -/
theorem normalizer_keeps_duplicate_ids :
    (processBackendData ⟨"ts", [("t1", 1), ("T1", 1)]⟩).1
      = [Seat.mk "T1" Status.Occupied, Seat.mk "T1" Status.Occupied]
    ∧ updateSummaryCards (processBackendData ⟨"ts", [("t1", 1), ("T1", 1)]⟩).1
      = ⟨2, 0, 0, 2⟩ := by
  exact ⟨by decide, by decide⟩

end SeatDetect
